import Mathlib

/-!
Verification of `compare_performance.py`, a benchmarking driver that builds and
runs two external program variants ("original" and "optimized"), scrapes timing
numbers from their console output, compares them and persists the raw results.

The embedding models:
  * the text pipeline `line.split(':')[-1].strip().split()[0]` + `float(...)`
    over `List Char` (`pySplit`, `pyStrip`, `pySplitWs`, `pyFloat`,
    `extractTimeStr`), with Python's `float` modelled on plain decimal /
    scientific literals (no inf/nan/underscores, which the scraped tokens
    never are);
  * a `Timings` record for the Python `timings` dict (metric name to float,
    floats modelled as rationals);
  * `run_version`, `clear_caches`, `compare_results` and `run_comparison`
    with the external world (build exit status, run outcome, the run's effect
    on the two cache directories) supplied as an environment, the raised
    `subprocess.TimeoutExpired` as `Except.error`, and the driver's externally
    visible actions as an `Event` trace;
  * `main`'s directory check and flag parsing.
-/

namespace ComparePerf

/-! ## Python string primitives -/

/-- Python `s.split(sep)` for a one-character separator over `List Char`:
always returns at least one (possibly empty) chunk. -/
def pySplit (sep : Char) : List Char → List (List Char)
  | [] => [[]]
  | c :: cs =>
    match pySplit sep cs with
    | [] => [[]]
    | h :: t => if c = sep then [] :: h :: t else (c :: h) :: t

/-- The Python list indexing `[-1]` on a never-empty list of chunks
(defaulting to `[]` on the unreachable empty list). -/
def lastChunk : List (List Char) → List Char
  | [] => []
  | [x] => x
  | _ :: x :: xs => lastChunk (x :: xs)

/-- Python `s.strip()`: remove leading and trailing whitespace. -/
def pyStrip (s : List Char) : List Char :=
  ((s.dropWhile Char.isWhitespace).reverse.dropWhile Char.isWhitespace).reverse

/-- Worker for `pySplitWs`, accumulating the current (reversed) token. -/
def splitWsAux : List Char → List Char → List (List Char)
  | [], acc => if acc.isEmpty then [] else [acc.reverse]
  | c :: cs, acc =>
    if c.isWhitespace then
      if acc.isEmpty then splitWsAux cs [] else acc.reverse :: splitWsAux cs []
    else splitWsAux cs (c :: acc)

/-- Python `s.split()` with no argument: split on whitespace runs, no empty
tokens. -/
def pySplitWs (s : List Char) : List (List Char) := splitWsAux s []

/-- Value of a digit string, most significant digit first. -/
def digitsToNat (ds : List Char) : ℕ :=
  ds.foldl (fun n c => 10 * n + (c.toNat - 48)) 0

/-- The exponent tail of a float literal: an optional sign and a nonempty run
of digits, nothing after it. -/
def pyExp (mant : ℚ) (t : List Char) : Option ℚ :=
  let sgn : ℤ := match t with | '-' :: _ => -1 | _ => 1
  let t2 := match t with | '+' :: u => u | '-' :: u => u | _ => t
  let ed := t2.takeWhile Char.isDigit
  let r3 := t2.dropWhile Char.isDigit
  if ed = [] ∨ r3 ≠ [] then none
  else some (mant * (10 : ℚ) ^ (sgn * (digitsToNat ed : ℤ)))

/-- Unsigned part of Python `float(...)`: `digits`, `digits.digits`,
`.digits`, `digits.`, each optionally followed by an exponent part. -/
def pyFloatCore (s : List Char) : Option ℚ :=
  let ip := s.takeWhile Char.isDigit
  let r1 := s.dropWhile Char.isDigit
  let fp := match r1 with
    | '.' :: t => t.takeWhile Char.isDigit
    | _ => []
  let r2 := match r1 with
    | '.' :: t => t.dropWhile Char.isDigit
    | _ => r1
  if ip = [] ∧ fp = [] then none
  else
    let mant : ℚ := (digitsToNat ip : ℚ) + (digitsToNat fp : ℚ) / (10 : ℚ) ^ fp.length
    match r2 with
    | [] => some mant
    | 'e' :: t => pyExp mant t
    | 'E' :: t => pyExp mant t
    | _ => none

/-- Python `float(token)` on a whitespace-free token: `none` models the
`ValueError` that the script's bare `except` swallows. -/
def pyFloat (s : List Char) : Option ℚ :=
  match s with
  | '+' :: t => pyFloatCore t
  | '-' :: t => (pyFloatCore t).map (fun q => -q)
  | _ => pyFloatCore s

/-- Does `hay` start with `needle`? -/
def startsWithList : List Char → List Char → Bool
  | [], _ => true
  | _ :: _, [] => false
  | a :: as, b :: bs => a == b && startsWithList as bs

/-- Python substring test `needle in hay`. -/
def hasSub (needle : List Char) : List Char → Bool
  | [] => needle.isEmpty
  | c :: cs => startsWithList needle (c :: cs) || hasSub needle cs

/-- The suffix of a line after its last colon (the whole line when it has no
colon), written from the spec's description of the extraction point. -/
def afterLastColon : List Char → List Char
  | [] => []
  | c :: cs =>
    if (':' : Char) ∈ cs then afterLastColon cs
    else if c = ':' then cs
    else c :: cs

/-! ## The Run Result (`timings` dict) -/

/-- The `timings` dict of `run_version`: one optional float per metric key the
script ever stores. An absent key is `none`; the freshly created empty dict has
every field `none`. -/
structure Timings where
  cache_loading : Option ℚ := none
  cache_saving : Option ℚ := none
  raw_reading : Option ℚ := none
  total_preparation : Option ℚ := none
  total_execution : Option ℚ := none
  cache_size_mb : Option ℚ := none
deriving DecidableEq

/-- The empty dict `{}`. -/
def Timings.empty : Timings := {}

/-- Python truthiness of the dict: `False` exactly when it has no entry. This
is the negation of `bool(d)` for a dict. -/
def Timings.isEmpty (t : Timings) : Bool :=
  t.cache_loading.isNone && t.cache_saving.isNone && t.raw_reading.isNone &&
    t.total_preparation.isNone && t.total_execution.isNone && t.cache_size_mb.isNone

/-- The six metric keys of the comparison table. -/
inductive Metric
  | cache_loading | cache_saving | raw_reading | total_preparation
  | total_execution | cache_size_mb
deriving DecidableEq

/-- Dict lookup `t.get(key)` without a default. -/
def Timings.get (t : Timings) : Metric → Option ℚ
  | .cache_loading => t.cache_loading
  | .cache_saving => t.cache_saving
  | .raw_reading => t.raw_reading
  | .total_preparation => t.total_preparation
  | .total_execution => t.total_execution
  | .cache_size_mb => t.cache_size_mb

/-- How many of the five timing metrics (everything except `cache_size_mb`)
are present in a Run Result. -/
def timingEntryCount (t : Timings) : ℕ :=
  [t.cache_loading, t.cache_saving, t.raw_reading, t.total_preparation,
    t.total_execution].countP Option.isSome

/-! ## Output scraping (the `for line in output_lines` loop) -/

def cacheLoadingMarker : List Char := "cache loading time".toList
def cacheSavingMarker : List Char := "cache saving time".toList
def rawReadingMarker : List Char := "raw data reading time".toList
def totalPrepMarker : List Char := "total data preparation time".toList

/-- The extraction `float(line.split(':')[-1].strip().split()[0])`: `none`
models both the `IndexError` (no token after the colon) and the `ValueError`
(token is not a float) that the bare `except: pass` swallows. -/
def extractTimeStr (line : List Char) : Option ℚ :=
  match pySplitWs (pyStrip (lastChunk (pySplit ':' line))) with
  | [] => none
  | tok :: _ => pyFloat tok

/-- One iteration of the scraping loop: the `if/elif` chain over the four
case-insensitive markers, storing the parsed value under the matching key and
silently skipping the line when extraction fails. -/
def lineStep (timings : Timings) (line : List Char) : Timings :=
  if hasSub cacheLoadingMarker (line.map Char.toLower) then
    match extractTimeStr line with
    | some v => { timings with cache_loading := some v }
    | none => timings
  else if hasSub cacheSavingMarker (line.map Char.toLower) then
    match extractTimeStr line with
    | some v => { timings with cache_saving := some v }
    | none => timings
  else if hasSub rawReadingMarker (line.map Char.toLower) then
    match extractTimeStr line with
    | some v => { timings with raw_reading := some v }
    | none => timings
  else if hasSub totalPrepMarker (line.map Char.toLower) then
    match extractTimeStr line with
    | some v => { timings with total_preparation := some v }
    | none => timings
  else timings

/-- The whole scraping loop over `result.stdout.split('\n')`, starting from
the fresh `timings = {}`. -/
def parseOutput (lines : List (List Char)) : Timings :=
  lines.foldl lineStep Timings.empty

/-- Does a line match any of the four recognized timing markers
(case-insensitively)? -/
def matchesAnyMarker (line : List Char) : Bool :=
  hasSub cacheLoadingMarker (line.map Char.toLower) ||
    hasSub cacheSavingMarker (line.map Char.toLower) ||
    hasSub rawReadingMarker (line.map Char.toLower) ||
    hasSub totalPrepMarker (line.map Char.toLower)

/-- Extraction as the spec words it: the token immediately following the last
colon of the line (whitespace after the colon skipped, as in the spec's own
`Cache loading time: 12.5 seconds` example) and ending at the first
whitespace, parsed as a floating-point number. -/
def specExtract (line : List Char) : Option ℚ :=
  pyFloat (((afterLastColon line).dropWhile Char.isWhitespace).takeWhile
    (fun c => !c.isWhitespace))

/-- The scraping step with `specExtract` in place of the implementation's
`extractTimeStr`: the spec-side description to compare `lineStep` against. -/
def specLineStep (timings : Timings) (line : List Char) : Timings :=
  if hasSub cacheLoadingMarker (line.map Char.toLower) then
    match specExtract line with
    | some v => { timings with cache_loading := some v }
    | none => timings
  else if hasSub cacheSavingMarker (line.map Char.toLower) then
    match specExtract line with
    | some v => { timings with cache_saving := some v }
    | none => timings
  else if hasSub rawReadingMarker (line.map Char.toLower) then
    match specExtract line with
    | some v => { timings with raw_reading := some v }
    | none => timings
  else if hasSub totalPrepMarker (line.map Char.toLower) then
    match specExtract line with
    | some v => { timings with total_preparation := some v }
    | none => timings
  else timings

/-! ## The external world: labels, caches, process outcomes -/

/-- The two compared variants. -/
inductive Label
  | original | optimized
deriving DecidableEq

/-- State of the two cache directories: `none` when the directory does not
exist, `some b` when it exists and its files total `b` bytes. -/
structure CacheState where
  original : Option ℚ
  optimized : Option ℚ
deriving DecidableEq

/-- The cache directory belonging to a label (`.timstof_cache` for the
original, `.timstof_cache_optimized` for the optimized version). -/
def CacheState.dirOf (s : CacheState) : Label → Option ℚ
  | .original => s.original
  | .optimized => s.optimized

/-- `clear_caches`: `shutil.rmtree` of each of the two cache directories when
present; afterwards neither exists. Idempotent, no error when absent. -/
def clear_caches (_s : CacheState) : CacheState :=
  { original := none, optimized := none }

/-- Outcome of the external `cargo run` step: either the 600-second bound
elapses (`subprocess.run` raises `TimeoutExpired`), or the process completes
with an exit status, captured stdout lines, and the driver-measured wall-clock
duration `time.time() - start_time`. -/
inductive RunOutcome
  | timeout
  | completed (returncode : Int) (stdoutLines : List (List Char)) (duration : ℚ)

/-- Environment for one `run_version` call: the external build step's exit
status, the external run step's outcome, and the run step's (opaque,
subprocess-owned) effect on the two cache directories. -/
structure VersionEnv where
  buildReturncode : Int
  runOutcome : RunOutcome
  runEffect : CacheState → CacheState

/-- The only exception the model tracks: `subprocess.TimeoutExpired`, which
the script never catches. -/
inductive RunError
  | timeoutExpired
deriving DecidableEq

/-- What one `run_version` call does: whether the run step was invoked at all,
the cache state after the call, and its result — `Except.error` models the
uncaught `TimeoutExpired` propagating, `Except.ok none` the `return None`
("absent") paths, `Except.ok (some t)` the assembled Run Result. -/
structure RunVersionOutcome where
  ranRun : Bool
  cacheAfter : CacheState
  result : Except RunError (Option Timings)

/-- Did the external build and run both succeed (exit status zero, no
timeout)? -/
def VersionEnv.succeeded (venv : VersionEnv) : Bool :=
  venv.buildReturncode == 0 &&
    match venv.runOutcome with
    | .timeout => false
    | .completed rc _ _ => rc == 0

/-- `run_version(version_dir, version_name)`: build; on non-zero build status
return `None` without running; run with the 600 s timeout (a timeout raises);
on non-zero run status return `None`; otherwise scrape the output, add the
driver-measured `total_execution`, and add `cache_size_mb` when the label's
cache directory exists after the run (bytes divided by 1024*1024). -/
def run_version (label : Label) (venv : VersionEnv) (cacheBefore : CacheState) :
    RunVersionOutcome :=
  if venv.buildReturncode ≠ 0 then
    { ranRun := false, cacheAfter := cacheBefore, result := .ok none }
  else
    match venv.runOutcome with
    | .timeout =>
      { ranRun := true, cacheAfter := cacheBefore, result := .error .timeoutExpired }
    | .completed rc lines dur =>
      if rc ≠ 0 then
        { ranRun := true, cacheAfter := venv.runEffect cacheBefore, result := .ok none }
      else
        { ranRun := true, cacheAfter := venv.runEffect cacheBefore,
          result := .ok (some
            (match (venv.runEffect cacheBefore).dirOf label with
             | some bytes =>
               { (parseOutput lines) with
                 total_execution := some dur,
                 cache_size_mb := some (bytes / (1024 * 1024)) }
             | none => { (parseOutput lines) with total_execution := some dur })) }

/-! ## The comparison table (`compare_results`) -/

/-- How a ratio is framed in the table: "x faster" for timing metrics,
"x smaller" for the cache size. -/
inductive Frame
  | faster | smaller
deriving DecidableEq

/-- One printed row of the table: a computed ratio, a value on only one side
(the other printed `N/A`), or no printed row at all. -/
inductive RowDisplay
  | ratio (origVal optVal speedup : ℚ) (frame : Frame)
  | onlyOriginal (origVal : ℚ)
  | onlyOptimized (optVal : ℚ)
  | blank
deriving DecidableEq

/-- `self.results`: the two labeled Run Results, each initialized to the empty
dict. -/
structure Results where
  original : Timings
  optimized : Timings
deriving DecidableEq

/-- The body of the `for display_name, key in metrics` loop of
`compare_results`: `orig_val = results["original"].get(key, 0)` and likewise
for `opt_val`, then the `>` guards and the `orig_val / opt_val` ratio. -/
def compareRow (res : Results) (key : Metric) : RowDisplay :=
  if ((res.original.get key).getD 0) > 0 ∧ ((res.optimized.get key).getD 0) > 0 then
    if key = Metric.cache_size_mb then
      RowDisplay.ratio ((res.original.get key).getD 0) ((res.optimized.get key).getD 0)
        (((res.original.get key).getD 0) / ((res.optimized.get key).getD 0)) Frame.smaller
    else
      RowDisplay.ratio ((res.original.get key).getD 0) ((res.optimized.get key).getD 0)
        (((res.original.get key).getD 0) / ((res.optimized.get key).getD 0)) Frame.faster
  else if ((res.original.get key).getD 0) > 0 then
    RowDisplay.onlyOriginal ((res.original.get key).getD 0)
  else if ((res.optimized.get key).getD 0) > 0 then
    RowDisplay.onlyOptimized ((res.optimized.get key).getD 0)
  else RowDisplay.blank

/-- The fixed `metrics` list of `compare_results`, in display order. -/
def metricsList : List Metric :=
  [Metric.cache_loading, Metric.cache_saving, Metric.raw_reading,
    Metric.total_preparation, Metric.total_execution, Metric.cache_size_mb]

/-- `compare_results`: one displayed row per metric. -/
def compare_results (res : Results) : List RowDisplay :=
  metricsList.map (compareRow res)

/-! ## The driver (`run_comparison` and `main`) -/

/-- The driver's externally visible actions, in order. -/
inductive Event
  | clearCaches
  | runStep (label : Label)
  | compare
  | writeRecord
deriving DecidableEq

/-- What a completed `run_comparison` produced: the persisted record's
contents, the ordered action trace, and the cache state at the three probe
points the frame property talks about. -/
structure CompOutcome where
  results : Results
  trace : List Event
  cacheBeforeOriginal : CacheState
  cacheBeforeOptimized : CacheState
  finalCaches : CacheState
deriving DecidableEq

/-- Environment for one `run_comparison` call: the cache state on entry,
whether each version directory exists, and each version's external behaviour. -/
structure CompEnv where
  initialCaches : CacheState
  originalDirExists : Bool
  originalEnv : VersionEnv
  optimizedDirExists : Bool
  optimizedEnv : VersionEnv

/-- The guarded assignment `if results: self.results[label] = results` starting
from the initial `{}`: `None` and (unreachably) an empty dict are falsy and
leave the label's entry the empty dict. -/
def assignIfTruthy (r : Option Timings) : Timings :=
  match r with
  | some t => if t.isEmpty then Timings.empty else t
  | none => Timings.empty

/-- One of the two `if self.<label>_dir.exists(): ... run_version ...` blocks
of `run_comparison` (lines 163-181): when the directory is missing only a
warning is printed and the label's results stay empty. -/
def runStepFor (dirExists : Bool) (label : Label) (venv : VersionEnv)
    (s : CacheState) : Except RunError (Timings × CacheState) :=
  if dirExists then
    match (run_version label venv s).result with
    | .error e => .error e
    | .ok r => .ok (assignIfTruthy r, (run_version label venv s).cacheAfter)
  else .ok (Timings.empty, s)

/-- `run_comparison(clear_cache_first)`: optionally clear caches, run the
original, optionally clear caches again, run the optimized, compare when both
labels' results are truthy, then write the record. An uncaught
`TimeoutExpired` from either run aborts everything (no record written). -/
def run_comparison (env : CompEnv) (clear_cache_first : Bool) :
    Except RunError CompOutcome :=
  match runStepFor env.originalDirExists Label.original env.originalEnv
      (if clear_cache_first then clear_caches env.initialCaches
       else env.initialCaches) with
  | .error e => .error e
  | .ok (origT, s2) =>
    match runStepFor env.optimizedDirExists Label.optimized env.optimizedEnv
        (if clear_cache_first then clear_caches s2 else s2) with
    | .error e => .error e
    | .ok (optT, s4) =>
      .ok {
        results := { original := origT, optimized := optT }
        trace :=
          (if clear_cache_first then [Event.clearCaches] else []) ++
            (if env.originalDirExists then [Event.runStep Label.original] else []) ++
            (if clear_cache_first then [Event.clearCaches] else []) ++
            (if env.optimizedDirExists then [Event.runStep Label.optimized] else []) ++
            (if !origT.isEmpty && !optT.isEmpty then [Event.compare] else []) ++
            [Event.writeRecord]
        cacheBeforeOriginal :=
          (if clear_cache_first then clear_caches env.initialCaches
           else env.initialCaches)
        cacheBeforeOptimized := (if clear_cache_first then clear_caches s2 else s2)
        finalCaches := s4 }

/-- How an invocation of `main` ends. -/
inductive MainResult
  | exitFailure
  | usageExit
  | ranComparison (clear_cache : Bool)
deriving DecidableEq

/-- `main()`: exit with failure status when either expected subdirectory is
missing; otherwise print usage and exit with success status on `--help`, and
otherwise run the comparison, clearing caches unless `--no-clear` is given. -/
def main (originalDirExists optimizedDirExists : Bool) (argv : List String) :
    MainResult :=
  if !originalDirExists || !optimizedDirExists then MainResult.exitFailure
  else if argv.contains "--help" then MainResult.usageExit
  else MainResult.ranComparison (!(argv.contains "--no-clear"))

/-! ## Lemmas about the string pipeline -/

theorem dropWhile_head_false (p : Char → Bool) :
    ∀ (l : List Char) (c : Char) (cs : List Char),
      l.dropWhile p = c :: cs → p c = false := by
  intro l
  induction l with
  | nil => intro c cs h; simp [List.dropWhile] at h
  | cons a t ih =>
    intro c cs h
    rw [List.dropWhile_cons] at h
    by_cases hp : p a = true
    · rw [if_pos hp] at h; exact ih c cs h
    · rw [if_neg hp] at h
      cases h
      simpa using hp

theorem dropWhile_append_single (p : Char → Bool) (a : Char) (h : p a = false) :
    ∀ l : List Char, (l ++ [a]).dropWhile p = l.dropWhile p ++ [a] := by
  intro l
  induction l with
  | nil => simp [List.dropWhile_cons, h]
  | cons b t ih =>
    rw [List.cons_append, List.dropWhile_cons, List.dropWhile_cons]
    by_cases hb : p b = true
    · rw [if_pos hb, if_pos hb, ih]
    · rw [if_neg hb, if_neg hb, List.cons_append]

theorem takeWhile_append_single (p : Char → Bool) (a : Char) (h : p a = false) :
    ∀ l : List Char, (l ++ [a]).takeWhile p = l.takeWhile p := by
  intro l
  induction l with
  | nil => simp [List.takeWhile_cons, h]
  | cons b t ih =>
    rw [List.cons_append, List.takeWhile_cons, List.takeWhile_cons]
    by_cases hb : p b = true
    · rw [if_pos hb, if_pos hb, ih]
    · rw [if_neg hb, if_neg hb]

theorem takeWhile_trimRight (cs : List Char) :
    ((cs.reverse.dropWhile Char.isWhitespace).reverse).takeWhile (fun c => !c.isWhitespace) =
      cs.takeWhile (fun c => !c.isWhitespace) := by
  induction cs using List.reverseRecOn with
  | nil => rfl
  | append_singleton ds d ih =>
    have hrev : (ds ++ [d]).reverse = d :: ds.reverse := by simp
    by_cases hd : d.isWhitespace = true
    · rw [hrev, List.dropWhile_cons, if_pos hd, ih,
        takeWhile_append_single _ _ (by simp [hd])]
    · have hd' : d.isWhitespace = false := by simpa using hd
      rw [hrev, List.dropWhile_cons, if_neg (by simp [hd'])]
      simp

theorem splitWsAux_head_acc :
    ∀ (s acc : List Char), acc ≠ [] →
      (splitWsAux s acc).head? =
        some (acc.reverse ++ s.takeWhile (fun c => !c.isWhitespace)) := by
  intro s
  induction s with
  | nil =>
    intro acc hacc
    simp only [splitWsAux]
    rw [if_neg (by simpa using hacc)]
    simp
  | cons c cs ih =>
    intro acc hacc
    simp only [splitWsAux]
    by_cases hc : c.isWhitespace = true
    · rw [if_pos hc, if_neg (by simpa using hacc)]
      simp [List.takeWhile_cons, hc]
    · rw [if_neg hc, ih (c :: acc) (by simp)]
      simp only [List.reverse_cons, List.takeWhile_cons]
      have hc' : c.isWhitespace = false := by simpa using hc
      simp [hc', List.append_assoc]

theorem pySplitWs_head (s : List Char) :
    (pySplitWs s).head? =
      match s.dropWhile Char.isWhitespace with
      | [] => none
      | c :: cs => some ((c :: cs).takeWhile (fun x => !x.isWhitespace)) := by
  induction s with
  | nil => rfl
  | cons c cs ih =>
    unfold pySplitWs at ih ⊢
    simp only [splitWsAux]
    by_cases hc : c.isWhitespace = true
    · rw [if_pos hc]
      simp only [List.isEmpty_nil, if_pos]
      rw [ih, List.dropWhile_cons, if_pos hc]
    · rw [if_neg hc, splitWsAux_head_acc cs [c] (by simp)]
      rw [List.dropWhile_cons, if_neg hc]
      have hc' : c.isWhitespace = false := by simpa using hc
      simp [List.takeWhile_cons, hc']

theorem extract_head_eq (a : List Char) :
    (match pySplitWs (pyStrip a) with
     | [] => none
     | tok :: _ => pyFloat tok) =
      pyFloat ((a.dropWhile Char.isWhitespace).takeWhile (fun c => !c.isWhitespace)) := by
  cases hu : a.dropWhile Char.isWhitespace with
  | nil =>
    have hstrip : pyStrip a = [] := by unfold pyStrip; rw [hu]; rfl
    rw [hstrip]
    rfl
  | cons c cs =>
    have hc : c.isWhitespace = false := dropWhile_head_false _ a c cs hu
    have hstrip : pyStrip a = c :: (cs.reverse.dropWhile Char.isWhitespace).reverse := by
      unfold pyStrip
      rw [hu, List.reverse_cons, dropWhile_append_single _ _ hc, List.reverse_append]
      simp
    rw [hstrip]
    have h1 : (pySplitWs (c :: (cs.reverse.dropWhile Char.isWhitespace).reverse)).head? =
        some ((c :: (cs.reverse.dropWhile Char.isWhitespace).reverse).takeWhile
          (fun x => !x.isWhitespace)) := by
      rw [pySplitWs_head, List.dropWhile_cons, if_neg (by simp [hc])]
    cases hpw : pySplitWs (c :: (cs.reverse.dropWhile Char.isWhitespace).reverse) with
    | nil => rw [hpw] at h1; cases h1
    | cons tok rest =>
      rw [hpw] at h1
      simp only [List.head?_cons, Option.some.injEq] at h1
      subst h1
      simp only [List.takeWhile_cons, hc, Bool.not_false, if_pos]
      rw [takeWhile_trimRight cs]

theorem pySplit_ne_nil (sep : Char) : ∀ s : List Char, pySplit sep s ≠ [] := by
  intro s
  cases s with
  | nil => simp [pySplit]
  | cons c cs =>
    simp only [pySplit]
    cases hp : pySplit sep cs with
    | nil => simp
    | cons h t => by_cases hc : c = sep <;> simp [hc]

theorem pySplit_no_sep (sep : Char) :
    ∀ s : List Char, sep ∉ s → pySplit sep s = [s] := by
  intro s
  induction s with
  | nil => intro _; rfl
  | cons c cs ih =>
    intro h
    have hc : ¬ c = sep := by rintro rfl; exact h (List.mem_cons_self _ _)
    have hcs : sep ∉ cs := fun hm => h (List.mem_cons_of_mem _ hm)
    simp only [pySplit, ih hcs]
    rw [if_neg hc]

theorem pySplit_mem_sep (sep : Char) :
    ∀ s : List Char, sep ∈ s → ∃ x y ys, pySplit sep s = x :: y :: ys := by
  intro s
  induction s with
  | nil => intro h; simp at h
  | cons c cs ih =>
    intro h
    simp only [pySplit]
    obtain ⟨h1, t1, ht⟩ : ∃ h1 t1, pySplit sep cs = h1 :: t1 := by
      cases hp : pySplit sep cs with
      | nil => exact absurd hp (pySplit_ne_nil sep cs)
      | cons x y => exact ⟨x, y, rfl⟩
    simp only [ht]
    by_cases hc : c = sep
    · rw [if_pos hc]; exact ⟨[], h1, t1, rfl⟩
    · rw [if_neg hc]
      have hcs : sep ∈ cs := by
        rcases List.mem_cons.mp h with h' | h'
        · exact absurd h'.symm hc
        · exact h'
      obtain ⟨x, y, ys, hxy⟩ := ih hcs
      rw [ht] at hxy
      cases hxy
      exact ⟨c :: h1, y, ys, rfl⟩

theorem afterLastColon_no_colon :
    ∀ s : List Char, (':' : Char) ∉ s → afterLastColon s = s := by
  intro s
  cases s with
  | nil => intro _; rfl
  | cons c cs =>
    intro h
    have hcs : (':' : Char) ∉ cs := fun hm => h (List.mem_cons_of_mem _ hm)
    have hc : ¬ c = ':' := by rintro rfl; exact h (List.mem_cons_self _ _)
    simp only [afterLastColon]
    rw [if_neg hcs, if_neg hc]

theorem lastChunk_pySplit : ∀ s : List Char, lastChunk (pySplit ':' s) = afterLastColon s := by
  intro s
  induction s with
  | nil => rfl
  | cons c cs ih =>
    simp only [pySplit]
    obtain ⟨h1, t1, ht⟩ : ∃ h1 t1, pySplit ':' cs = h1 :: t1 := by
      cases hp : pySplit ':' cs with
      | nil => exact absurd hp (pySplit_ne_nil ':' cs)
      | cons x y => exact ⟨x, y, rfl⟩
    simp only [ht]
    by_cases hc : c = ':'
    · rw [if_pos hc]
      have e1 : lastChunk ([] :: h1 :: t1) = lastChunk (h1 :: t1) := rfl
      rw [e1, ← ht, ih]
      subst hc
      simp only [afterLastColon]
      by_cases hmem : (':' : Char) ∈ cs
      · rw [if_pos hmem]
      · rw [if_neg hmem, afterLastColon_no_colon cs hmem]
        simp
    · rw [if_neg hc]
      cases ht1 : t1 with
      | nil =>
        subst ht1
        have hmem : (':' : Char) ∉ cs := by
          intro hmem
          obtain ⟨x, y, ys, hxy⟩ := pySplit_mem_sep ':' cs hmem
          rw [ht] at hxy
          cases hxy
        have hcs : h1 = cs := by
          have h2 := pySplit_no_sep ':' cs hmem
          rw [ht] at h2
          cases h2
          rfl
        subst hcs
        simp only [afterLastColon, lastChunk]
        rw [if_neg hmem, if_neg hc]
      | cons y ys =>
        subst ht1
        have e1 : lastChunk ((c :: h1) :: y :: ys) = lastChunk (y :: ys) := rfl
        have e2 : lastChunk (h1 :: y :: ys) = lastChunk (y :: ys) := rfl
        rw [e1, ← e2, ← ht, ih]
        have hmem : (':' : Char) ∈ cs := by
          by_contra hmem
          have h2 := pySplit_no_sep ':' cs hmem
          rw [ht] at h2
          cases h2
        simp only [afterLastColon]
        rw [if_pos hmem]

/-- The implementation's extraction agrees, on every line, with the spec's
description of it. -/
theorem extract_eq (line : List Char) : extractTimeStr line = specExtract line := by
  unfold extractTimeStr specExtract
  rw [lastChunk_pySplit]
  exact extract_head_eq (afterLastColon line)

/-! ## Lemmas about the scraping loop -/

theorem lineStep_no_marker (t : Timings) (line : List Char)
    (h : matchesAnyMarker line = false) : lineStep t line = t := by
  unfold lineStep
  split_ifs with h1 h2 h3 h4
  all_goals first
    | rfl
    | (exfalso; unfold matchesAnyMarker at h; simp_all)

theorem foldl_lineStep_no_marker :
    ∀ (lines : List (List Char)) (t : Timings),
      (∀ l ∈ lines, matchesAnyMarker l = false) → lines.foldl lineStep t = t := by
  intro lines
  induction lines with
  | nil => intro t _; rfl
  | cons l ls ih =>
    intro t h
    rw [List.foldl_cons, lineStep_no_marker t l (h l (List.mem_cons_self _ _))]
    exact ih t (fun x hx => h x (List.mem_cons_of_mem _ hx))

theorem lineStep_extract_none (t : Timings) (line : List Char)
    (h : extractTimeStr line = none) : lineStep t line = t := by
  unfold lineStep
  rw [h]
  split_ifs <;> rfl

/-! ## Lemmas about run_version and the driver -/

theorem run_version_build_fail (label : Label) (venv : VersionEnv) (cache : CacheState)
    (h : venv.buildReturncode ≠ 0) :
    run_version label venv cache =
      { ranRun := false, cacheAfter := cache, result := .ok none } := by
  unfold run_version
  rw [if_pos h]

theorem run_version_timeout (label : Label) (venv : VersionEnv) (cache : CacheState)
    (hb : venv.buildReturncode = 0) (ho : venv.runOutcome = RunOutcome.timeout) :
    run_version label venv cache =
      { ranRun := true, cacheAfter := cache, result := .error .timeoutExpired } := by
  unfold run_version
  rw [if_neg (by simp [hb])]
  simp only [ho]

theorem run_version_success (label : Label) (venv : VersionEnv) (cache : CacheState)
    (rc : Int) (lines : List (List Char)) (dur : ℚ)
    (hb : venv.buildReturncode = 0) (ho : venv.runOutcome = RunOutcome.completed rc lines dur)
    (hrc : rc = 0) :
    run_version label venv cache =
      { ranRun := true, cacheAfter := venv.runEffect cache,
        result := .ok (some
          (match (venv.runEffect cache).dirOf label with
           | some bytes =>
             { (parseOutput lines) with
               total_execution := some dur,
               cache_size_mb := some (bytes / (1024 * 1024)) }
           | none => { (parseOutput lines) with total_execution := some dur })) } := by
  subst hrc
  unfold run_version
  rw [if_neg (by simp [hb])]
  simp only [ho]
  norm_num

theorem run_version_ok_some (label : Label) (venv : VersionEnv) (cache : CacheState)
    (t : Timings) (h : (run_version label venv cache).result = .ok (some t)) :
    venv.succeeded = true ∧ t.isEmpty = false ∧ t.total_execution.isSome = true := by
  unfold run_version at h
  by_cases hb : venv.buildReturncode = 0
  · rw [if_neg (by simp [hb])] at h
    cases ho : venv.runOutcome with
    | timeout => simp only [ho] at h; simp at h
    | completed rc lines dur =>
      simp only [ho] at h
      by_cases hrc : rc = 0
      · subst hrc
        rw [if_neg (by norm_num)] at h
        simp only [Except.ok.injEq, Option.some.injEq] at h
        subst h
        refine ⟨by simp [VersionEnv.succeeded, hb, ho], ?_, ?_⟩
        · cases hdir : (venv.runEffect cache).dirOf label <;>
            simp [hdir, Timings.isEmpty]
        · cases hdir : (venv.runEffect cache).dirOf label <;> simp [hdir]
      · rw [if_pos hrc] at h
        simp at h
  · rw [if_pos hb] at h
    simp at h

theorem run_version_succ_some (label : Label) (venv : VersionEnv) (cache : CacheState)
    (h : venv.succeeded = true) :
    ∃ t, (run_version label venv cache).result = .ok (some t) := by
  unfold VersionEnv.succeeded at h
  cases ho : venv.runOutcome with
  | timeout => rw [ho] at h; simp at h
  | completed rc lines dur =>
    rw [ho] at h
    simp only [Bool.and_eq_true, beq_iff_eq] at h
    obtain ⟨hb, hrc⟩ := h
    refine ⟨(match (venv.runEffect cache).dirOf label with
      | some bytes =>
        { (parseOutput lines) with
          total_execution := some dur,
          cache_size_mb := some (bytes / (1024 * 1024)) }
      | none => { (parseOutput lines) with total_execution := some dur }), ?_⟩
    rw [run_version_success label venv cache rc lines dur hb ho hrc]

theorem run_version_cacheAfter_id (label : Label) (venv : VersionEnv) (s : CacheState)
    (hid : ∀ x, venv.runEffect x = x) :
    (run_version label venv s).cacheAfter = s := by
  unfold run_version
  by_cases hb : venv.buildReturncode ≠ 0
  · rw [if_pos hb]
  · rw [if_neg hb]
    cases ho : venv.runOutcome with
    | timeout => rfl
    | completed rc lines dur =>
      by_cases hrc : rc ≠ 0 <;> simp [hrc, hid]

theorem runStepFor_ok_isEmpty (d : Bool) (label : Label) (venv : VersionEnv)
    (s : CacheState) (t : Timings) (s2 : CacheState)
    (h : runStepFor d label venv s = .ok (t, s2)) :
    t.isEmpty = !(d && venv.succeeded) := by
  cases d with
  | false =>
    unfold runStepFor at h
    rw [if_neg (by simp)] at h
    simp only [Except.ok.injEq, Prod.mk.injEq] at h
    obtain ⟨ht, _⟩ := h
    subst ht
    rfl
  | true =>
    unfold runStepFor at h
    rw [if_pos rfl] at h
    cases hres : (run_version label venv s).result with
    | error e => simp only [hres] at h; simp at h
    | ok r =>
      simp only [hres, Except.ok.injEq, Prod.mk.injEq] at h
      obtain ⟨ht, _⟩ := h
      subst ht
      cases r with
      | none =>
        have hsf : venv.succeeded = false := by
          cases hs : venv.succeeded
          · rfl
          · obtain ⟨t', ht'⟩ := run_version_succ_some label venv s hs
            rw [hres] at ht'
            simp at ht'
        rw [hsf]
        rfl
      | some tr =>
        obtain ⟨hsucc, hne, _⟩ := run_version_ok_some label venv s tr hres
        rw [hsucc]
        simp [assignIfTruthy, hne]

theorem runStepFor_build_fail (d : Bool) (label : Label) (venv : VersionEnv)
    (s : CacheState) (t : Timings) (s2 : CacheState)
    (h : runStepFor d label venv s = .ok (t, s2)) (hb : venv.buildReturncode ≠ 0) :
    t = Timings.empty := by
  cases d with
  | false =>
    unfold runStepFor at h
    rw [if_neg (by simp)] at h
    simp only [Except.ok.injEq, Prod.mk.injEq] at h
    exact h.1.symm
  | true =>
    unfold runStepFor at h
    rw [if_pos rfl, run_version_build_fail label venv s hb] at h
    simp only [Except.ok.injEq, Prod.mk.injEq] at h
    exact h.1.symm

theorem runStepFor_cache_id (d : Bool) (label : Label) (venv : VersionEnv)
    (s : CacheState) (t : Timings) (s2 : CacheState)
    (h : runStepFor d label venv s = .ok (t, s2)) (hid : ∀ x, venv.runEffect x = x) :
    s2 = s := by
  cases d with
  | false =>
    unfold runStepFor at h
    rw [if_neg (by simp)] at h
    simp only [Except.ok.injEq, Prod.mk.injEq] at h
    exact h.2.symm
  | true =>
    unfold runStepFor at h
    rw [if_pos rfl] at h
    cases hres : (run_version label venv s).result with
    | error e => simp only [hres] at h; simp at h
    | ok r =>
      simp only [hres, Except.ok.injEq, Prod.mk.injEq] at h
      rw [← h.2, run_version_cacheAfter_id label venv s hid]

/-- Eliminator for a completed `run_comparison`: the two step results it went
through and the record it returned. -/
theorem run_comparison_ok_elim (env : CompEnv) (cf : Bool) (res : CompOutcome)
    (h : run_comparison env cf = Except.ok res) :
    ∃ origT s2 optT s4,
      runStepFor env.originalDirExists Label.original env.originalEnv
          (if cf then clear_caches env.initialCaches else env.initialCaches) =
        .ok (origT, s2) ∧
      runStepFor env.optimizedDirExists Label.optimized env.optimizedEnv
          (if cf then clear_caches s2 else s2) = .ok (optT, s4) ∧
      res = { results := { original := origT, optimized := optT }
              trace := (if cf then [Event.clearCaches] else []) ++
                (if env.originalDirExists then [Event.runStep Label.original] else []) ++
                (if cf then [Event.clearCaches] else []) ++
                (if env.optimizedDirExists then [Event.runStep Label.optimized] else []) ++
                (if !origT.isEmpty && !optT.isEmpty then [Event.compare] else []) ++
                [Event.writeRecord]
              cacheBeforeOriginal :=
                (if cf then clear_caches env.initialCaches else env.initialCaches)
              cacheBeforeOptimized := (if cf then clear_caches s2 else s2)
              finalCaches := s4 } := by
  unfold run_comparison at h
  cases hRA : runStepFor env.originalDirExists Label.original env.originalEnv
      (if cf then clear_caches env.initialCaches else env.initialCaches) with
  | error e => simp only [hRA] at h; simp at h
  | ok p =>
    obtain ⟨origT, s2⟩ := p
    simp only [hRA] at h
    cases hRB : runStepFor env.optimizedDirExists Label.optimized env.optimizedEnv
        (if cf then clear_caches s2 else s2) with
    | error e => simp only [hRB] at h; simp at h
    | ok q =>
      obtain ⟨optT, s4⟩ := q
      simp only [hRB, Except.ok.injEq] at h
      exact ⟨origT, s2, optT, s4, rfl, hRB, h.symm⟩

/-! ## Concrete instances used by the claims' counterexamples and witnesses -/

/-- A version whose build succeeds but whose run step exceeds the 600 s bound. -/
def timeoutEnv : VersionEnv :=
  { buildReturncode := 0, runOutcome := RunOutcome.timeout, runEffect := fun s => s }

def timeoutCompEnv : CompEnv :=
  { initialCaches := { original := none, optimized := none },
    originalDirExists := true, originalEnv := timeoutEnv,
    optimizedDirExists := true, optimizedEnv := timeoutEnv }

/-- A successful run whose stdout (`hi`) has no timing marker. -/
def c2cEnv : VersionEnv :=
  { buildReturncode := 0, runOutcome := RunOutcome.completed 0 [['h', 'i']] 7,
    runEffect := fun s => s }

/-- A successful run with marker-free stdout (`ok`), for the amended C2. -/
def c2wEnv : VersionEnv :=
  { buildReturncode := 0, runOutcome := RunOutcome.completed 0 [['o', 'k']] 7,
    runEffect := fun s => s }

/-- A cache state where the original's directory exists with 2 MiB of files. -/
def c2wCache : CacheState := { original := some 2097152, optimized := none }

/-- The spec's ratio example: `cache_loading` 12.5 against 2.5. -/
def exResults : Results :=
  { original := { Timings.empty with cache_loading := some 12.5 },
    optimized := { Timings.empty with cache_loading := some 2.5 } }

def c5ExampleLine : List Char := "Cache loading time: 12.5 seconds".toList

def c6BadLine : List Char := "Cache loading time: abc seconds".toList

def c6GoodLine : List Char := "Cache saving time: 2.0 seconds".toList

/-- A version whose build step exits with status 3. -/
def c7wEnv : VersionEnv :=
  { buildReturncode := 3, runOutcome := RunOutcome.timeout, runEffect := fun s => s }

def c7wCompEnv : CompEnv :=
  { initialCaches := { original := none, optimized := none },
    originalDirExists := true, originalEnv := c7wEnv,
    optimizedDirExists := true, optimizedEnv := c7wEnv }

def c7wRes : CompOutcome :=
  { results := { original := Timings.empty, optimized := Timings.empty },
    trace := [Event.clearCaches, Event.runStep Label.original, Event.clearCaches,
      Event.runStep Label.optimized, Event.writeRecord],
    cacheBeforeOriginal := { original := none, optimized := none },
    cacheBeforeOptimized := { original := none, optimized := none },
    finalCaches := { original := none, optimized := none } }

/-- Both directories present, both builds failing (exit status 1). -/
def c8wEnv : CompEnv :=
  { initialCaches := { original := some 3, optimized := some 4 },
    originalDirExists := true,
    originalEnv :=
      { buildReturncode := 1, runOutcome := RunOutcome.timeout, runEffect := fun s => s },
    optimizedDirExists := true,
    optimizedEnv :=
      { buildReturncode := 1, runOutcome := RunOutcome.timeout, runEffect := fun s => s } }

def c8wRes : CompOutcome :=
  { results := { original := Timings.empty, optimized := Timings.empty },
    trace := [Event.clearCaches, Event.runStep Label.original, Event.clearCaches,
      Event.runStep Label.optimized, Event.writeRecord],
    cacheBeforeOriginal := { original := none, optimized := none },
    cacheBeforeOptimized := { original := none, optimized := none },
    finalCaches := { original := none, optimized := none } }

/-- Non-empty caches on entry, original's build failing, optimized directory
missing: with clearing skipped the driver must leave the caches untouched. -/
def c9wEnv : CompEnv :=
  { initialCaches := { original := some 5, optimized := some 7 },
    originalDirExists := true,
    originalEnv :=
      { buildReturncode := 1, runOutcome := RunOutcome.timeout, runEffect := fun s => s },
    optimizedDirExists := false,
    optimizedEnv :=
      { buildReturncode := 1, runOutcome := RunOutcome.timeout, runEffect := fun s => s } }

def c9wRes : CompOutcome :=
  { results := { original := Timings.empty, optimized := Timings.empty },
    trace := [Event.runStep Label.original, Event.writeRecord],
    cacheBeforeOriginal := { original := some 5, optimized := some 7 },
    cacheBeforeOptimized := { original := some 5, optimized := some 7 },
    finalCaches := { original := some 5, optimized := some 7 } }

/-- Both runs succeed with empty stdout, durations 3 and 4. -/
def c10wEnv : CompEnv :=
  { initialCaches := { original := none, optimized := none },
    originalDirExists := true,
    originalEnv :=
      { buildReturncode := 0, runOutcome := RunOutcome.completed 0 [] 3,
        runEffect := fun s => s },
    optimizedDirExists := true,
    optimizedEnv :=
      { buildReturncode := 0, runOutcome := RunOutcome.completed 0 [] 4,
        runEffect := fun s => s } }

def c10wRes : CompOutcome :=
  { results := { original := { Timings.empty with total_execution := some 3 },
                 optimized := { Timings.empty with total_execution := some 4 } },
    trace := [Event.runStep Label.original, Event.runStep Label.optimized,
      Event.compare, Event.writeRecord],
    cacheBeforeOriginal := { original := none, optimized := none },
    cacheBeforeOptimized := { original := none, optimized := none },
    finalCaches := { original := none, optimized := none } }

/-! ## The claims -/

/-- C1. The claim says a run-step timeout makes `run_version` return absent and
the driver continue. In the code `subprocess.run(..., timeout=600)` raises
`TimeoutExpired`, which nothing catches: evaluated at a build that exits zero
and a run that hits the bound, `run_version` raises (it does not return the
absent `None`), and `run_comparison` aborts with the exception instead of
continuing to the next step or writing the record. -/
theorem timeout_exception_aborts_driver :
    run_version Label.original timeoutEnv { original := none, optimized := none } =
      { ranRun := true, cacheAfter := { original := none, optimized := none },
        result := Except.error RunError.timeoutExpired } ∧
    run_comparison timeoutCompEnv true = Except.error RunError.timeoutExpired :=
  ⟨rfl, rfl⟩

/-- C2 counterexample. A successful run whose stdout (`hi`) matches no timing
marker still returns a Run Result with one timing entry — the driver-measured
`total_execution` — so "zero timing entries" is false at this input. -/
theorem no_marker_counterexample :
    matchesAnyMarker ['h', 'i'] = false ∧
    (run_version Label.original c2cEnv { original := none, optimized := none }).result =
      Except.ok (some { Timings.empty with total_execution := some 7 }) ∧
    timingEntryCount { Timings.empty with total_execution := some (7 : ℚ) } = 1 :=
  ⟨by decide, rfl, rfl⟩

/-- C2 amended. A successful `run_version` whose stdout matches no timing
marker returns a Run Result with no scraped timing entries (`cache_loading`,
`cache_saving`, `raw_reading`, `total_preparation` all absent), always a
`total_execution` entry equal to the measured duration, and a `cache_size_mb`
entry exactly when the label's cache directory exists after the run. -/
theorem no_marker_scrape (label : Label) (venv : VersionEnv) (cache : CacheState)
    (rc : Int) (lines : List (List Char)) (dur : ℚ)
    (hb : venv.buildReturncode = 0)
    (ho : venv.runOutcome = RunOutcome.completed rc lines dur)
    (hrc : rc = 0) (hnm : ∀ l ∈ lines, matchesAnyMarker l = false) :
    (run_version label venv cache).result = Except.ok (some
      { cache_loading := none, cache_saving := none, raw_reading := none,
        total_preparation := none, total_execution := some dur,
        cache_size_mb := ((venv.runEffect cache).dirOf label).map
          (fun b => b / (1024 * 1024)) }) := by
  rw [run_version_success label venv cache rc lines dur hb ho hrc]
  have hparse : parseOutput lines = Timings.empty :=
    foldl_lineStep_no_marker lines Timings.empty hnm
  cases hdir : (venv.runEffect cache).dirOf label <;>
    simp [hdir, hparse, Timings.empty]

/-- C2 witness: the amended claim at a concrete successful run (stdout `ok`,
duration 7, original cache directory present with 2097152 bytes). -/
theorem no_marker_scrape_witness :
    (run_version Label.original c2wEnv c2wCache).result = Except.ok (some
      { cache_loading := none, cache_saving := none, raw_reading := none,
        total_preparation := none, total_execution := some 7,
        cache_size_mb := ((c2wEnv.runEffect c2wCache).dirOf Label.original).map
          (fun b => b / (1024 * 1024)) }) :=
  no_marker_scrape Label.original c2wEnv c2wCache 0 [['o', 'k']] 7 rfl rfl rfl (by decide)

/-- C3 counterexample. With `--help` on the command line but the original
version's directory missing, `main` exits with failure status (the directory
check runs first), not with the success status the claim requires. -/
theorem help_flag_counterexample :
    main false true ["--help"] = MainResult.exitFailure := rfl

/-- C3 amended. `--help` prints usage and exits with success status only when
both expected subdirectories are present; when either is missing the program
exits with failure status before ever looking at `--help`. -/
theorem help_flag_dir_check :
    (∀ argv : List String, argv.contains "--help" = true →
        main true true argv = MainResult.usageExit) ∧
    (∀ (o1 o2 : Bool) (argv : List String), (o1 && o2) = false →
        main o1 o2 argv = MainResult.exitFailure) := by
  constructor
  · intro argv h
    unfold main
    rw [if_neg (by simp), if_pos h]
  · intro o1 o2 argv h
    unfold main
    cases o1 <;> cases o2 <;> simp_all

/-- C3 witness: the amended claim at concrete inputs. -/
theorem help_flag_dir_check_witness :
    main true true ["--help"] = MainResult.usageExit ∧
    main true false ["--help"] = MainResult.exitFailure :=
  ⟨help_flag_dir_check.1 ["--help"] (by decide),
   help_flag_dir_check.2 true false ["--help"] (by decide)⟩

/-- C4. `compare_results` maps the fixed metric list through the row logic; a
row is a ratio exactly when both labels report a strictly positive value for
the metric (a missing key reads as 0 and so counts as unavailable); the ratio
is original/optimized, framed "smaller" for `cache_size_mb` and "faster" for
the five timing metrics; with exactly one positive side that side's value is
shown with the other marked unavailable. -/
theorem compare_metric_guard :
    (∀ res : Results, compare_results res = metricsList.map (compareRow res)) ∧
    (∀ (res : Results) (key : Metric),
      (∀ o p r fr, compareRow res key = RowDisplay.ratio o p r fr →
          0 < (res.original.get key).getD 0 ∧ 0 < (res.optimized.get key).getD 0) ∧
      (0 < (res.original.get key).getD 0 → 0 < (res.optimized.get key).getD 0 →
          compareRow res key = RowDisplay.ratio ((res.original.get key).getD 0)
            ((res.optimized.get key).getD 0)
            (((res.original.get key).getD 0) / ((res.optimized.get key).getD 0))
            (if key = Metric.cache_size_mb then Frame.smaller else Frame.faster)) ∧
      (0 < (res.original.get key).getD 0 → ¬ 0 < (res.optimized.get key).getD 0 →
          compareRow res key = RowDisplay.onlyOriginal ((res.original.get key).getD 0)) ∧
      (¬ 0 < (res.original.get key).getD 0 → 0 < (res.optimized.get key).getD 0 →
          compareRow res key = RowDisplay.onlyOptimized ((res.optimized.get key).getD 0))) := by
  refine ⟨fun res => rfl, fun res key => ⟨?_, ?_, ?_, ?_⟩⟩
  · intro o p r fr h
    unfold compareRow at h
    split_ifs at h with h1 hks h2 h3
    all_goals exact h1
  · intro ho hp
    unfold compareRow
    rw [if_pos ⟨ho, hp⟩]
    by_cases hk : key = Metric.cache_size_mb
    · rw [if_pos hk, if_pos hk]
    · rw [if_neg hk, if_neg hk]
  · intro ho hp
    unfold compareRow
    rw [if_neg (by tauto), if_pos ho]
  · intro ho hp
    unfold compareRow
    rw [if_neg (by tauto), if_neg ho, if_pos hp]

/-- C4 witness: the spec's example — `cache_loading` 12.5 against 2.5 shows the
ratio 5 framed "faster". -/
theorem compare_metric_guard_witness :
    compareRow exResults Metric.cache_loading = RowDisplay.ratio 12.5 2.5 5 Frame.faster := by
  have h := (compare_metric_guard.2 exResults Metric.cache_loading).2.1
    (by norm_num [exResults, Timings.get, Timings.empty])
    (by norm_num [exResults, Timings.get, Timings.empty])
  rw [h]
  norm_num [exResults, Timings.get, Timings.empty]
  intro hc
  exact absurd hc (by decide)

/-- C5. On every output line the implementation's scraping step behaves as the
spec describes it: the stored value is the first token after the line's last
colon (whitespace following the colon skipped, per the spec's own example),
truncated at the first whitespace and parsed as a float; and the example line
`Cache loading time: 12.5 seconds` yields the entry `cache_loading = 12.5`. -/
theorem extraction_matches_spec :
    (∀ (line : List Char) (t : Timings), lineStep t line = specLineStep t line) ∧
    lineStep Timings.empty c5ExampleLine =
      { Timings.empty with cache_loading := some 12.5 } := by
  constructor
  · intro line t
    unfold lineStep specLineStep
    rw [extract_eq]
  · have h1 : extractTimeStr c5ExampleLine =
        some (((12 : ℕ) : ℚ) + ((5 : ℕ) : ℚ) / (10 : ℚ) ^ (1 : ℕ)) := rfl
    have h2 : extractTimeStr c5ExampleLine = some 12.5 := by
      rw [h1]; norm_num
    unfold lineStep
    rw [if_pos (by decide), h2]

/-- C6. A line that matches a timing marker but whose extracted token does not
parse as a float adds no entry and leaves the rest of the scrape unchanged:
the loop body is the identity on it, and dropping the line from any output
leaves the parsed Run Result identical (the bare `except: pass` swallows the
`ValueError`, so the run does not fail). -/
theorem malformed_line_ignored (line : List Char) (t : Timings)
    (_hm : matchesAnyMarker line = true) (hf : extractTimeStr line = none) :
    lineStep t line = t ∧
      ∀ pre post : List (List Char),
        parseOutput (pre ++ line :: post) = parseOutput (pre ++ post) := by
  refine ⟨lineStep_extract_none t line hf, ?_⟩
  intro pre post
  unfold parseOutput
  rw [List.foldl_append, List.foldl_append, List.foldl_cons,
    lineStep_extract_none _ line hf]

/-- C6 witness: the spec's malformed example line `Cache loading time: abc
seconds` is ignored while a following well-formed line is still scraped. -/
theorem malformed_line_ignored_witness :
    lineStep Timings.empty c6BadLine = Timings.empty ∧
    parseOutput ([] ++ c6BadLine :: [c6GoodLine]) = parseOutput ([] ++ [c6GoodLine]) :=
  ⟨(malformed_line_ignored c6BadLine Timings.empty (by decide) (by decide)).1,
   (malformed_line_ignored c6BadLine Timings.empty (by decide) (by decide)).2
     [] [c6GoodLine]⟩

/-- C7. When the build step exits non-zero, `run_version` returns absent
without ever invoking the run step (`ranRun = false`), and in any completed
`run_comparison` that label's entry in the persisted record is still the empty
mapping. -/
theorem build_failure_absent :
    (∀ (label : Label) (venv : VersionEnv) (cache : CacheState),
        venv.buildReturncode ≠ 0 →
        run_version label venv cache =
          { ranRun := false, cacheAfter := cache, result := Except.ok none }) ∧
    (∀ (env : CompEnv) (cf : Bool) (res : CompOutcome),
        run_comparison env cf = Except.ok res →
        (env.originalEnv.buildReturncode ≠ 0 → res.results.original = Timings.empty) ∧
        (env.optimizedEnv.buildReturncode ≠ 0 → res.results.optimized = Timings.empty)) := by
  refine ⟨run_version_build_fail, ?_⟩
  intro env cf res h
  obtain ⟨origT, s2, optT, s4, hRA, hRB, hres⟩ := run_comparison_ok_elim env cf res h
  subst hres
  exact ⟨fun hb => runStepFor_build_fail _ _ _ _ _ _ hRA hb,
         fun hb => runStepFor_build_fail _ _ _ _ _ _ hRB hb⟩

/-- C7 witness: a build exiting with status 3 yields the absent result with
the run step not invoked, and the completed comparison (both builds failing
with status 3) persists an empty mapping for the original label. -/
theorem build_failure_absent_witness :
    run_version Label.original c7wEnv { original := none, optimized := none } =
      { ranRun := false, cacheAfter := { original := none, optimized := none },
        result := Except.ok none } ∧
    run_comparison c7wCompEnv true = Except.ok c7wRes ∧
    c7wRes.results.original = Timings.empty :=
  ⟨build_failure_absent.1 Label.original c7wEnv
     { original := none, optimized := none } (by decide),
   rfl,
   (build_failure_absent.2 c7wCompEnv true c7wRes rfl).1 (by decide)⟩

/-- C8. Every completed `run_comparison` (both version directories present)
performs, in order: the optional cache clear, the original's run, the optional
cache clear again, the optimized's run, the comparison exactly when both
labels' results are non-empty, and then — unconditionally, whatever the builds
and runs did — the write of the record holding both labeled Run Results
(`json.dump` to the fixed file with mode `w`, overwriting any prior record). -/
theorem run_comparison_sequence (env : CompEnv) (cf : Bool) (res : CompOutcome)
    (hA : env.originalDirExists = true) (hB : env.optimizedDirExists = true)
    (h : run_comparison env cf = Except.ok res) :
    res.trace =
      (if cf then [Event.clearCaches] else []) ++ [Event.runStep Label.original] ++
        (if cf then [Event.clearCaches] else []) ++ [Event.runStep Label.optimized] ++
        (if !res.results.original.isEmpty && !res.results.optimized.isEmpty
         then [Event.compare] else []) ++ [Event.writeRecord] ∧
    res.trace.getLast? = some Event.writeRecord := by
  obtain ⟨origT, s2, optT, s4, hRA, hRB, hres⟩ := run_comparison_ok_elim env cf res h
  subst hres
  constructor
  · simp [hA, hB]
  · simp [List.getLast?_append]

/-- C8 witness: with both directories present, both builds failing and
clearing requested, the completed invocation's trace is clear, run original,
clear, run optimized, write — and ends with the record write. -/
theorem run_comparison_sequence_witness :
    run_comparison c8wEnv true = Except.ok c8wRes ∧
    c8wRes.trace.getLast? = some Event.writeRecord :=
  ⟨rfl, (run_comparison_sequence c8wEnv true c8wRes rfl rfl rfl).2⟩

/-- C9. With `--no-clear` (and directories present, no `--help`), `main` runs
the comparison with clearing disabled; in any completed `run_comparison` with
clearing disabled the driver never calls `clear_caches`, and — when the
benchmarked subprocesses themselves leave the cache directories alone — the
byte sizes of both cache directories before each labeled run, and at the end,
are exactly what they were before the invocation. -/
theorem no_clear_frame :
    (∀ (o1 o2 : Bool) (argv : List String), o1 = true → o2 = true →
        argv.contains "--no-clear" = true → argv.contains "--help" = false →
        main o1 o2 argv = MainResult.ranComparison false) ∧
    (∀ (env : CompEnv) (res : CompOutcome),
        run_comparison env false = Except.ok res →
        Event.clearCaches ∉ res.trace ∧
        ((∀ s, env.originalEnv.runEffect s = s) →
         (∀ s, env.optimizedEnv.runEffect s = s) →
          res.cacheBeforeOriginal = env.initialCaches ∧
          res.cacheBeforeOptimized = env.initialCaches ∧
          res.finalCaches = env.initialCaches)) := by
  constructor
  · intro o1 o2 argv h1 h2 hnc hh
    subst h1; subst h2
    unfold main
    rw [if_neg (by simp), if_neg (by simp only [hh]; simp), hnc]
    rfl
  · intro env res h
    obtain ⟨origT, s2, optT, s4, hRA, hRB, hres⟩ := run_comparison_ok_elim env false res h
    simp only [Bool.false_eq_true, if_false] at hRA hRB hres
    subst hres
    constructor
    · split_ifs <;> simp
    · intro hid1 hid2
      have hs2 : s2 = env.initialCaches := runStepFor_cache_id _ _ _ _ _ _ hRA hid1
      have hs4 : s4 = s2 := runStepFor_cache_id _ _ _ _ _ _ hRB hid2
      subst hs2
      exact ⟨rfl, rfl, hs4⟩

/-- C9 witness: `--no-clear` dispatches with clearing off, and a completed
no-clear invocation (caches 5 and 7 bytes, original build failing, optimized
directory missing) has no clear event and untouched cache sizes. -/
theorem no_clear_frame_witness :
    main true true ["--no-clear"] = MainResult.ranComparison false ∧
    Event.clearCaches ∉ c9wRes.trace ∧
    c9wRes.cacheBeforeOriginal = c9wEnv.initialCaches ∧
    c9wRes.finalCaches = c9wEnv.initialCaches :=
  ⟨no_clear_frame.1 true true ["--no-clear"] rfl rfl (by decide) (by decide),
   (no_clear_frame.2 c9wEnv c9wRes rfl).1,
   ((no_clear_frame.2 c9wEnv c9wRes rfl).2 (fun _ => rfl) (fun _ => rfl)).1,
   ((no_clear_frame.2 c9wEnv c9wRes rfl).2 (fun _ => rfl) (fun _ => rfl)).2.2⟩

/-- C10. A `run_version` whose build and run both exit zero within the bound
returns a Run Result containing `total_execution` equal to the driver-measured
duration, hence never the empty mapping; consequently, in any completed
`run_comparison`, the truthiness guard in front of `compare_results` ("both
labels' results non-empty") coincides with both labels' runs having succeeded
(directory present, build and run exit zero, no timeout), and the compare step
appears in the trace exactly under that condition. -/
theorem success_total_execution :
    (∀ (label : Label) (venv : VersionEnv) (cache : CacheState)
        (rc : Int) (lines : List (List Char)) (dur : ℚ),
        venv.buildReturncode = 0 → venv.runOutcome = RunOutcome.completed rc lines dur →
        rc = 0 →
        ∃ t, (run_version label venv cache).result = Except.ok (some t) ∧
          t.total_execution = some dur ∧ t.isEmpty = false) ∧
    (∀ (env : CompEnv) (cf : Bool) (res : CompOutcome),
        run_comparison env cf = Except.ok res →
        (!res.results.original.isEmpty && !res.results.optimized.isEmpty) =
          (env.originalDirExists && env.originalEnv.succeeded &&
            (env.optimizedDirExists && env.optimizedEnv.succeeded)) ∧
        ((Event.compare ∈ res.trace) ↔
          (env.originalDirExists && env.originalEnv.succeeded &&
            (env.optimizedDirExists && env.optimizedEnv.succeeded)) = true)) := by
  constructor
  · intro label venv cache rc lines dur hb ho hrc
    refine ⟨(match (venv.runEffect cache).dirOf label with
      | some bytes =>
        { (parseOutput lines) with
          total_execution := some dur,
          cache_size_mb := some (bytes / (1024 * 1024)) }
      | none => { (parseOutput lines) with total_execution := some dur }), ?_, ?_, ?_⟩
    · rw [run_version_success label venv cache rc lines dur hb ho hrc]
    · cases hdir : (venv.runEffect cache).dirOf label <;> simp [hdir]
    · cases hdir : (venv.runEffect cache).dirOf label <;> simp [hdir, Timings.isEmpty]
  · intro env cf res h
    obtain ⟨origT, s2, optT, s4, hRA, hRB, hres⟩ := run_comparison_ok_elim env cf res h
    subst hres
    have e1 := runStepFor_ok_isEmpty _ _ _ _ _ _ hRA
    have e2 := runStepFor_ok_isEmpty _ _ _ _ _ _ hRB
    have hguard : (!origT.isEmpty && !optT.isEmpty) =
        (env.originalDirExists && env.originalEnv.succeeded &&
          (env.optimizedDirExists && env.optimizedEnv.succeeded)) := by
      rw [e1, e2, Bool.not_not, Bool.not_not]
    refine ⟨hguard, ?_⟩
    rw [← hguard]
    by_cases hg : (!origT.isEmpty && !optT.isEmpty) = true
    · simp [hg, List.mem_append]
    · have hg' : (!origT.isEmpty && !optT.isEmpty) = false := by
        cases hx : (!origT.isEmpty && !optT.isEmpty)
        · rfl
        · exact absurd hx hg
      simp only [hg']
      split_ifs <;> simp_all

/-- C10 witness: two succeeding runs (durations 3 and 4) make both results
non-empty and the guard agree with the succeeded flags. -/
theorem success_total_execution_witness :
    run_comparison c10wEnv false = Except.ok c10wRes ∧
    (!c10wRes.results.original.isEmpty && !c10wRes.results.optimized.isEmpty) =
      (c10wEnv.originalDirExists && c10wEnv.originalEnv.succeeded &&
        (c10wEnv.optimizedDirExists && c10wEnv.optimizedEnv.succeeded)) :=
  ⟨rfl, (success_total_execution.2 c10wEnv false c10wRes rfl).1⟩

end ComparePerf
